import Mathlib

/-!
Verification development for the fundraising-CRM chatbot core
(`src/core/chatbot.py` and `src/core/email_service.py`).

The Python code is shallowly embedded: the datastore is an explicit
record of lists, Django ORM calls become list operations on it, the
mail transport and the generative-AI backend are passed in as explicit
functions (`ComposedEmail → Except String Unit`, resp.
`String → Except String String`), and every handler is a pure function
from the state (plus those collaborators) to a response, returning the
updated state where the Python code writes to the database.

Auto-managed timestamp columns (`created_date`, `sent_at`, ...) and the
Django `User` foreign keys are elided; the acting user is modelled by
its username (`Option String`), which is all the core logic reads.
-/

/-! ## Data model (src/core/models.py) -/

/-- Investor row (`core.models.Investor`); `id` is the primary key,
`amount` is the decimal amount held in hundredths (two decimal places). -/
structure Investor where
  id : Nat
  name : String
  email : String
  labels : String
  address : String
  details : String
  amount : Int
  updated_by : String
deriving DecidableEq, Repr

/-- Artifact row (`core.models.Artifact`); `file` is the stored file
path, `none` when no backing file is present (`if artifact.file:`). -/
structure Artifact where
  id : Nat
  artifact_type : String
  artifact_labels : String
  file : Option String
  name : String
  description : String
deriving DecidableEq, Repr

/-- Email draft row (`core.models.EmailDraft`); `artifacts` holds the
ids of the attached artifacts (the many-to-many relation). -/
structure EmailDraft where
  id : Nat
  name : String
  subject : String
  body : String
  artifacts : List Nat
deriving DecidableEq, Repr

/-- Communication log row (`core.models.CommunicationLog`). -/
structure CommunicationLog where
  investorId : Nat
  draftId : Option Nat
  status : String
  sent_by : Option String
  notes : String
deriving DecidableEq, Repr

/-- The datastore: one list per table, in query order (the Django
default ordering), plus the next auto-increment investor key. -/
structure DB where
  investors : List Investor
  artifacts : List Artifact
  drafts : List EmailDraft
  logs : List CommunicationLog
  nextInvestorId : Nat
deriving DecidableEq, Repr

/-! ## String helpers (Python semantics) -/

/-- Python regex `\s` / `str.strip` whitespace (ASCII range). -/
def isPySpace (c : Char) : Bool :=
  c = ' ' || c = '\t' || c = '\n' || c = '\r' || c = '\x0b' || c = '\x0c'

/-- ASCII letter test (`[a-zA-Z]`). -/
def isAlphaB (c : Char) : Bool :=
  decide (('a' ≤ c ∧ c ≤ 'z') ∨ ('A' ≤ c ∧ c ≤ 'Z'))

/-- ASCII digit test (`[0-9]`). -/
def isDigitB (c : Char) : Bool :=
  decide ('0' ≤ c ∧ c ≤ '9')

/-- Python regex `\w` (ASCII range): `[a-zA-Z0-9_]`. -/
def isWordChar (c : Char) : Bool :=
  isAlphaB c || isDigitB c || c = '_'

/-- Python `str.strip()`: drop leading and trailing whitespace. -/
def pyStrip (s : String) : String :=
  (((s.data.dropWhile isPySpace).reverse.dropWhile isPySpace).reverse).asString

/-- Python `str.lower()` (ASCII range), character by character. -/
def pyToLower (s : String) : String :=
  (s.data.map Char.toLower).asString

/-- Whether `pat` is a prefix of `l` (character lists). -/
def startsWithSeq : List Char → List Char → Bool
  | [], _ => true
  | _ :: _, [] => false
  | p :: ps, c :: cs => p = c && startsWithSeq ps cs

/-- Whether `pat` occurs as a contiguous subsequence of `l`
(Python `sub in s` on strings). -/
def containsSeq (pat : List Char) : List Char → Bool
  | [] => startsWithSeq pat []
  | c :: cs => startsWithSeq pat (c :: cs) || containsSeq pat cs

/-- Python `c in s` for a single character. -/
def hasChar (s : String) (c : Char) : Bool :=
  s.data.contains c

/-- Django `field__icontains=kw`: case-insensitive substring test. -/
def icontains (s kw : String) : Bool :=
  containsSeq (pyToLower kw).data (pyToLower s).data

/-- Python `"sep".join(parts)` for newline separators
(`"\n".join(response_parts)` in `_handle_search`). -/
def joinWithNewlines : List String → String
  | [] => ""
  | [p] => p
  | p :: ps => p ++ "\n" ++ joinWithNewlines ps

/-- Digit grouping for `format(x, ",")`: input is the digit list in
reverse (least-significant first); a comma is inserted after every
three digits. -/
def commaGroupRev : List Char → List Char
  | a :: b :: c :: d :: rest => a :: b :: c :: ',' :: commaGroupRev (d :: rest)
  | l => l

/-- Python `f"{amount:,.2f}"` on the two-decimal amount stored in
hundredths: thousands separators on the integer part, exactly two
fractional digits. -/
def formatAmount (cents : Int) : String :=
  let n := cents.natAbs
  let intPart := n / 100
  let frac := n % 100
  let sign := if cents < 0 then "-" else ""
  sign ++ ((commaGroupRev (toString intPart).data.reverse).reverse).asString
    ++ "." ++ (if frac < 10 then "0" else "") ++ toString frac

/-! ## Responses (the dict returned by `ChatbotService.process_message`) -/

/-- The optional `data` payload of a chatbot response: the send-email
success handler carries the investor and the draft, the search handler
carries the investor list, artifact list and keyword list. -/
inductive Payload where
  | sendData (investor : Investor) (draft : EmailDraft)
  | searchData (investors : List Investor) (artifacts : List Artifact)
      (keywords : List String)
deriving DecidableEq, Repr

/-- A chatbot response: the `type` / `message` / optional `data` dict. -/
structure Response where
  type : String
  message : String
  data : Option Payload
deriving DecidableEq, Repr

/-! ## Mailer (src/core/email_service.py) -/

/-- An outbound message as composed by `EmailService`
(`django.core.mail.EmailMessage` plus its `content_subtype` and the
file paths that were attached). -/
structure ComposedEmail where
  subject : String
  body : String
  toAddrs : List String
  content_subtype : String
  attachments : List String
deriving DecidableEq, Repr

/-- Compose an `EmailMessage`: the content subtype is switched from the
`"plain"` default to `"html"` exactly when the body contains both a `<`
and a `>` character (`if '<' in body and '>' in body`). -/
def composeEmail (subject body : String) (toAddrs : List String)
    (attachments : List String) : ComposedEmail :=
  { subject := subject, body := body, toAddrs := toAddrs,
    content_subtype :=
      if hasChar body '<' && hasChar body '>' then "html" else "plain",
    attachments := attachments }

/-- File paths attached by `send_draft_email`'s loop over
`draft.artifacts.all()`: every associated artifact with a backing file.
Individual `attach_file` exceptions are swallowed (printed as warnings)
and never abort the send, so the attachment set does not affect any
other outcome. -/
def draftAttachments (db : DB) (draft : EmailDraft) : List String :=
  (db.artifacts.filter (fun a => decide (a.id ∈ draft.artifacts))).filterMap
    (fun a => a.file)

/-- The message composed by `EmailService.send_draft_email` before it is
handed to the transport. -/
def draftEmailMessage (db : DB) (investor : Investor) (draft : EmailDraft) :
    ComposedEmail :=
  composeEmail draft.subject draft.body [investor.email]
    (draftAttachments db draft)

/-- The message composed by `EmailService.send_custom_email`. -/
def customEmailMessage (to_email subject body : String)
    (attachments : Option (List String)) : ComposedEmail :=
  composeEmail subject body [to_email] (attachments.getD [])

/-- Mailer operation `EmailService.send_draft_email`: compose the
message, submit it to the transport, and write exactly one
CommunicationLog row — `success` with a fixed note when the transport
succeeds, `failed` with the stringified error in the note when it
raises.  Returns the updated store with the `(success, message)` pair. -/
def send_draft_email (db : DB)
    (transport : ComposedEmail → Except String Unit)
    (investor : Investor) (draft : EmailDraft) (user : Option String) :
    DB × Bool × String :=
  let email := draftEmailMessage db investor draft
  match transport email with
  | Except.ok _ =>
    ({ db with logs := db.logs ++
        [{ investorId := investor.id, draftId := some draft.id,
           status := "success", sent_by := user,
           notes := "Email sent via chatbot" }] },
     true, "Email sent successfully")
  | Except.error e =>
    ({ db with logs := db.logs ++
        [{ investorId := investor.id, draftId := some draft.id,
           status := "failed", sent_by := user,
           notes := "Failed to send: " ++ e }] },
     false, e)

/-- Mailer operation `EmailService.send_custom_email`: compose and send;
no log row is written. -/
def send_custom_email (transport : ComposedEmail → Except String Unit)
    (to_email subject body : String) (attachments : Option (List String))
    (_user : Option String) : Bool × String :=
  match transport (customEmailMessage to_email subject body attachments) with
  | Except.ok _ => (true, "Email sent successfully")
  | Except.error e => (false, e)

/-! ## Command patterns (ChatbotService regexes)

The two compiled patterns of `ChatbotService` are embedded as direct
matchers with Python `re` semantics: case-insensitive literals, greedy
quantifiers, explicit backtracking where a shorter greedy match can
rescue the overall match, and `search` scanning start positions left to
right. -/

/-- Quote character class `["\']`. -/
def isQuoteChar (c : Char) : Bool :=
  c = '\'' || c = '"'

/-- Case-insensitive literal: consume `pat` (given lowercase) from the
head of the input, returning the rest. -/
def litCI : List Char → List Char → Option (List Char)
  | [], cs => some cs
  | _ :: _, [] => none
  | p :: ps, c :: cs => if p = c.toLower then litCI ps cs else none

/-- Greedy `\s+`: one or more whitespace characters.  Every use site in
the two patterns is followed by a non-whitespace token, so maximal munch
is exact. -/
def ws1 (cs : List Char) : Option (List Char) :=
  match cs with
  | c :: rest => if isPySpace c then some (rest.dropWhile isPySpace) else none
  | [] => none

/-- Character class of the email local part: `[a-zA-Z0-9._%+-]`. -/
def isLocalChar (c : Char) : Bool :=
  isAlphaB c || isDigitB c || c = '.' || c = '_' || c = '%' || c = '+' || c = '-'

/-- Character class of the email domain part: `[a-zA-Z0-9.-]`. -/
def isDomChar (c : Char) : Bool :=
  isAlphaB c || isDigitB c || c = '.' || c = '-'

/-- Match `[a-zA-Z0-9._%+-]+@[a-zA-Z0-9.-]+\.[a-zA-Z]{2,}` at the head
of the input, returning the captured email and the rest.  The pattern
is followed by `\s+`, so the domain run must be consumed whole; with
backtracking this succeeds exactly when the maximal domain run ends in
`.` followed by at least two letters, with at least one domain character
before that dot. -/
def matchEmail (cs : List Char) : Option (List Char × List Char) :=
  let lcl := cs.takeWhile isLocalChar
  if lcl.isEmpty then none else
  match cs.drop lcl.length with
  | '@' :: cs1 =>
    let run := cs1.takeWhile isDomChar
    let rest := cs1.drop run.length
    let calpha := (run.reverse.takeWhile isAlphaB).reverse
    if 2 ≤ calpha.length ∧ calpha.length + 2 ≤ run.length ∧
        run.getD (run.length - calpha.length - 1) ' ' = '.' then
      some (lcl ++ '@' :: run, rest)
    else none
  | _ => none

/-- Match `["\']?(\w+)["\']?` at the head of the input, returning the
captured word.  A consumed opening quote cannot be rescued by skipping
it (a quote is never a word character), so no backtracking is needed. -/
def quoteName (cs : List Char) : Option (List Char × List Char) :=
  let cs1 := match cs with
    | c :: rest => if isQuoteChar c then rest else cs
    | [] => cs
  let w := cs1.takeWhile isWordChar
  if w.isEmpty then none else
  let cs2 := cs1.drop w.length
  let cs3 := match cs2 with
    | c :: rest => if isQuoteChar c then rest else cs2
    | [] => cs2
  some (w, cs3)

/-- Match `(?:of\s+)?["\']?(\w+)["\']?`: prefer consuming `of\s+`, but
backtrack to skipping the optional group when the name part then fails
(so `draft of` followed by a non-word token yields the name `of`). -/
def draftPart (cs : List Char) : Option (List Char) :=
  match litCI ['o', 'f'] cs with
  | some cs1 =>
    match ws1 cs1 with
    | some cs2 =>
      match quoteName cs2 with
      | some (w, _) => some w
      | none => (quoteName cs).map (fun p => p.1)
    | none => (quoteName cs).map (fun p => p.1)
  | none => (quoteName cs).map (fun p => p.1)

/-- Match `draft\s+(?:of\s+)?["\']?(\w+)["\']?`. -/
def draftClause (cs : List Char) : Option (List Char) :=
  match litCI ['d', 'r', 'a', 'f', 't'] cs with
  | some cs1 =>
    match ws1 cs1 with
    | some cs2 => draftPart cs2
    | none => none
  | none => none

/-- Match `(?:the\s+)?draft\s+...`: prefer consuming `the\s+`, but
backtrack to skipping it when the rest then fails. -/
def theDraftClause (cs : List Char) : Option (List Char) :=
  match litCI ['t', 'h', 'e'] cs with
  | some cs1 =>
    match ws1 cs1 with
    | some cs2 =>
      match draftClause cs2 with
      | some w => some w
      | none => draftClause cs
    | none => draftClause cs
  | none => draftClause cs

/-- Match `ChatbotService.SEND_EMAIL_PATTERN` anchored at the head of
the input, returning the two captures `(email, draft name)`. -/
def sendEmailMatchAt (cs : List Char) : Option (String × String) := do
  let c1 ← litCI ['s', 'e', 'n', 'd'] cs
  let c2 ← ws1 c1
  let c3 ← litCI ['e', 'm', 'a', 'i', 'l'] c2
  let c4 ← ws1 c3
  let c5 ← litCI ['t', 'o'] c4
  let c6 ← ws1 c5
  let (em, c7) ← matchEmail c6
  let c8 ← ws1 c7
  let w ← theDraftClause c8
  return (em.asString, w.asString)

/-- Scan of `SEND_EMAIL_PATTERN.search`: try every start position from
the left. -/
def sendEmailFindAux : List Char → Option (String × String)
  | [] => none
  | c :: cs =>
    match sendEmailMatchAt (c :: cs) with
    | some r => some r
    | none => sendEmailFindAux cs

/-- `SEND_EMAIL_PATTERN.search(message)` with its two captures. -/
def sendEmailFind (s : String) : Option (String × String) :=
  sendEmailFindAux s.data

/-- Match `(?:me\s+)?data`: prefer consuming `me\s+`, backtracking to
the bare `data` literal. -/
def meDataClause (cs : List Char) : Option (List Char) :=
  match litCI ['m', 'e'] cs with
  | some c1 =>
    match ws1 c1 with
    | some c2 =>
      match litCI ['d', 'a', 't', 'a'] c2 with
      | some c3 => some c3
      | none => litCI ['d', 'a', 't', 'a'] cs
    | none => litCI ['d', 'a', 't', 'a'] cs
  | none => litCI ['d', 'a', 't', 'a'] cs

/-- Match `\s*(.+)` with Python priorities: the greedy `\s*` consumes as
much whitespace as possible first, giving characters back (so that `.+`
can match whitespace) only when nothing non-empty would remain for the
capture; `.` never matches a newline. -/
def wsStarDotPlus : List Char → Option (List Char)
  | [] => none
  | c :: cs =>
    if isPySpace c then
      match wsStarDotPlus cs with
      | some r => some r
      | none =>
        if c = '\n' then none
        else some (c :: cs.takeWhile (fun x => decide (x ≠ '\n')))
    else some (c :: cs.takeWhile (fun x => decide (x ≠ '\n')))

/-- Match `[-:]?\s*(.+)`: prefer consuming the separator. -/
def optDashTail (cs : List Char) : Option (List Char) :=
  match cs with
  | [] => none
  | c :: rest =>
    if c = '-' || c = ':' then
      match wsStarDotPlus rest with
      | some r => some r
      | none => wsStarDotPlus (c :: rest)
    else wsStarDotPlus (c :: rest)

/-- Match `\s*[-:]?\s*(.+)` (the tail of `SEARCH_PATTERN`). -/
def matchTail : List Char → Option (List Char)
  | [] => none
  | c :: cs =>
    if isPySpace c then
      match matchTail cs with
      | some r => some r
      | none => optDashTail (c :: cs)
    else optDashTail (c :: cs)

/-- Match `ChatbotService.SEARCH_PATTERN` anchored at the head of the
input, returning the capture (the query remainder). -/
def searchMatchAt (cs : List Char) : Option String := do
  let c1 ← litCI ['s', 'h', 'o', 'w'] cs
  let c2 ← ws1 c1
  let c3 ← meDataClause c2
  let c4 ← ws1 c3
  let c5 ← litCI ['f', 'o', 'r'] c4
  let cap ← matchTail c5
  return cap.asString

/-- Scan of `SEARCH_PATTERN.search`. -/
def searchFindAux : List Char → Option String
  | [] => none
  | c :: cs =>
    match searchMatchAt (c :: cs) with
    | some r => some r
    | none => searchFindAux cs

/-- `SEARCH_PATTERN.search(message)` with its capture. -/
def searchFind (s : String) : Option String :=
  searchFindAux s.data

/-! ## Keyword tokenization (`_handle_search`) -/

/-- Scan of `re.findall(r"['\"]([^'\"]+)['\"]|(\w+)", query_string)`:
non-overlapping left-to-right matches, each yielding the pair of the
two capture groups (exactly one of which is non-empty).  The first
alternative needs a quote, one or more non-quote characters, and a
closing quote (of either kind); greedy `[^'\"]+` is exact because a
shorter match would put a non-quote character under the closing quote.
`fuel` only bounds the recursion: every step strictly shortens the
remaining input, so starting it at the input length (as `findKw` does)
never cuts the scan short. -/
def findKwAux : Nat → List Char → List (String × String)
  | 0, _ => []
  | _, [] => []
  | fuel + 1, c :: cs =>
    if isQuoteChar c then
      let inner := cs.takeWhile (fun x => !(isQuoteChar x))
      match cs.drop inner.length with
      | _q :: rest =>
        if inner.isEmpty then findKwAux fuel cs
        else (inner.asString, "") :: findKwAux fuel rest
      | [] => findKwAux fuel cs
    else if isWordChar c then
      let w := cs.takeWhile isWordChar
      ("", (c :: w).asString) :: findKwAux fuel (cs.drop w.length)
    else findKwAux fuel cs

/-- The full `findall` scan over the query string's characters. -/
def findKw (cs : List Char) : List (String × String) :=
  findKwAux cs.length cs

/-! ## Search handler (`ChatbotService._handle_search`) -/

/-- The stop-word list `['and', 'or', 'for', 'the']`. -/
def stopWords : List String := ["and", "or", "for", "the"]

/-- First keyword pass:
`keywords = [k[0] or k[1] for k in keywords if k[0] or k[1]]`
— for each `findall` tuple keep the non-empty group. -/
def rawTokens (query_string : String) : List String :=
  ((findKw query_string.data).filter
      (fun k => decide (k.1 ≠ "" ∨ k.2 ≠ ""))).map
    (fun k => if k.1 ≠ "" then k.1 else k.2)

/-- Second keyword pass:
`[k.strip() for k in keywords if k.strip() and k.lower() not in [...]]`
— drop tokens that strip to empty or whose lowercase form (before
stripping) is a stop-word, and strip the kept ones. -/
def extractKeywords (query_string : String) : List String :=
  ((rawTokens query_string).filter
      (fun k => decide (pyStrip k ≠ "") && decide (pyToLower k ∉ stopWords))).map
    pyStrip

/-- One keyword against one investor: the three OR-ed `icontains`
filters on `name`, `email` and `labels`. -/
def investorKwMatch (kw : String) (inv : Investor) : Bool :=
  icontains inv.name kw || icontains inv.email kw || icontains inv.labels kw

/-- One keyword against one artifact: the three OR-ed `icontains`
filters on `name`, `artifact_labels` and `description`. -/
def artifactKwMatch (kw : String) (a : Artifact) : Bool :=
  icontains a.name kw || icontains a.artifact_labels kw ||
    icontains a.description kw

/-- The `investors.extend(...)` loop: concatenate, keyword by keyword,
the investors matching that keyword (each matching row once, in store
order). -/
def collectInvestors (st : DB) (keywords : List String) : List Investor :=
  keywords.foldl
    (fun acc kw => acc ++ st.investors.filter (investorKwMatch kw)) []

/-- The artifact `extend` loop. -/
def collectArtifacts (st : DB) (keywords : List String) : List Artifact :=
  keywords.foldl
    (fun acc kw => acc ++ st.artifacts.filter (artifactKwMatch kw)) []

/-- A single insertion into a Python dict comprehension keyed by `key`:
an existing key keeps its position but takes the new value, a fresh key
is appended. -/
def dictInsert (key : α → Nat) (acc : List α) (x : α) : List α :=
  if acc.any (fun y => decide (key y = key x)) then
    acc.map (fun y => if key y = key x then x else y)
  else acc ++ [x]

/-- `list({v.id: v for v in l}.values())`: deduplication through a
Python dict keyed by primary key, preserving insertion order. -/
def dedupDict (key : α → Nat) (l : List α) : List α :=
  l.foldl (dictInsert key) []

/-- The deduplicated investor result list of `_handle_search`. -/
def searchInvestors (st : DB) (keywords : List String) : List Investor :=
  dedupDict Investor.id (collectInvestors st keywords)

/-- The deduplicated artifact result list of `_handle_search`. -/
def searchArtifacts (st : DB) (keywords : List String) : List Artifact :=
  dedupDict Artifact.id (collectArtifacts st keywords)

/-- One formatted investor line of the search summary. -/
def investorLine (inv : Investor) : String :=
  "  • " ++ inv.name ++ " (" ++ inv.email ++ ") - ₹" ++ formatAmount inv.amount

/-- One formatted artifact line of the search summary. -/
def artifactLine (a : Artifact) : String :=
  "  • " ++ a.name ++ " (" ++ a.artifact_type ++ ")"

/-- The investor section of the search summary (count plus at most ten
formatted entries, or the empty notice). -/
def investorSection (investors : List Investor) : List String :=
  if investors.isEmpty then ["\n👥 No investors found."]
  else ("\n👥 **Investors (" ++ toString investors.length ++ "):**")
    :: (investors.take 10).map investorLine

/-- The artifact section of the search summary. -/
def artifactSection (artifacts : List Artifact) : List String :=
  if artifacts.isEmpty then ["\n📎 No artifacts found."]
  else ("\n📎 **Artifacts (" ++ toString artifacts.length ++ "):**")
    :: (artifacts.take 10).map artifactLine

/-- Handler `ChatbotService._handle_search`: tokenize, reject an empty
keyword set, collect and deduplicate both result lists, and build the
summary response with the full lists as payload.  It never writes to
the store. -/
def handle_search (st : DB) (query_string : String) : Response :=
  let keywords := extractKeywords query_string
  if keywords.isEmpty then
    { type := "error",
      message := "❌ Please provide keywords to search for.", data := none }
  else
    let investors := searchInvestors st keywords
    let artifacts := searchArtifacts st keywords
    let response_parts :=
      ("🔍 Search results for: " ++ String.intercalate ", " keywords ++ "\n")
        :: (investorSection investors ++ artifactSection artifacts)
    { type := "search_results",
      message := joinWithNewlines response_parts,
      data := some (Payload.searchData investors artifacts keywords) }

/-! ## Send-email handler (`ChatbotService._handle_send_email`) -/

/-- Draft lookup `EmailDraft.objects.get(name__iexact=draft_name)`:
case-insensitive exact name match.  The `name` column is unique, so at
most one row matches and the first hit is the row `get` returns. -/
def findDraft (st : DB) (draft_name : String) : Option EmailDraft :=
  st.drafts.find? (fun d => decide (pyToLower d.name = pyToLower draft_name))

/-- Python `email_address.split('@')[0]`: the text before the first
`@` (the whole string when there is none). -/
def localPart (email : String) : String :=
  (email.data.takeWhile (fun c => decide (c ≠ '@'))).asString

/-- The investor row built by the `get_or_create` defaults: name from
the email's local part, `updated_by` from the acting user's username or
the literal `"system"`, every other content column at its model
default. -/
def freshInvestor (st : DB) (email : String) (user : Option String) :
    Investor :=
  { id := st.nextInvestorId, name := localPart email, email := email,
    labels := "", address := "", details := "", amount := 0,
    updated_by := user.getD "system" }

/-- `Investor.objects.get_or_create(email=..., defaults=...)`: exact
email lookup; on a miss, append the defaults row under a fresh primary
key.  Returns the store, the row and the `created` flag. -/
def get_or_create_investor (st : DB) (email : String) (user : Option String) :
    DB × Investor × Bool :=
  match st.investors.find? (fun i => decide (i.email = email)) with
  | some inv => (st, inv, false)
  | none =>
    let inv := freshInvestor st email user
    ({ st with investors := st.investors ++ [inv],
               nextInvestorId := st.nextInvestorId + 1 },
     inv, true)

/-- Handler `ChatbotService._handle_send_email`: resolve the draft (on a
miss, report the available draft names), get-or-create the investor,
delegate to the mailer, and wrap the outcome. -/
def handle_send_email (st : DB) (user : Option String)
    (transport : ComposedEmail → Except String Unit)
    (email_address draft_name : String) : DB × Response :=
  match findDraft st draft_name with
  | none =>
    let available_drafts := st.drafts.map (fun d => d.name)
    let drafts_list :=
      if available_drafts.isEmpty then "No drafts available"
      else String.intercalate ", " available_drafts
    (st, { type := "error",
           message := "❌ Draft \x27" ++ draft_name
             ++ "\x27 not found. Available drafts: " ++ drafts_list,
           data := none })
  | some draft =>
    let goc := get_or_create_investor st email_address user
    let st1 := goc.1
    let investor := goc.2.1
    let created := goc.2.2
    let investor_status :=
      if created then "Created new investor" else "Found existing investor"
    let sent := send_draft_email st1 transport investor draft user
    let st2 := sent.1
    if sent.2.1 then
      (st2, { type := "success",
              message := "✅ Email sent successfully!\n\n📧 To: "
                ++ email_address ++ "\n📋 Draft: " ++ draft_name
                ++ "\n👤 " ++ investor_status ++ ": " ++ investor.name,
              data := some (Payload.sendData investor draft) })
    else
      (st2, { type := "error",
              message := "❌ Failed to send email: " ++ sent.2.2,
              data := none })

/-! ## Generic handler and dispatch (`ChatbotService`) -/

/-- The context prompt built by `_handle_generic_query` around the live
counts and the user's message. -/
def contextPrompt (st : DB) (message : String) : String :=
  "You are an AI assistant for a startup fundraising application. \nHere\x27s the current data context:\n- Total Investors: "
    ++ toString st.investors.length
    ++ "\n- Total Artifacts: " ++ toString st.artifacts.length
    ++ "  \n- Email Drafts: " ++ toString st.drafts.length
    ++ "\n- Emails Sent: " ++ toString st.logs.length
    ++ "\n\nAvailable commands the user can use:\n1. \"Send email to <email> the draft of <draft_name>\" - Sends an email draft to an investor\n2. \"Show me data for - \x27<keyword1>\x27, \x27<keyword2>\x27\" - Searches investors and artifacts\n\nUser\x27s question: "
    ++ message
    ++ "\n\nProvide a helpful, concise response. If they\x27re asking about functionality, guide them on how to use the app.\nKeep responses brief and friendly."

/-- Handler `ChatbotService._fallback_response`: the canned help text
with the live investor / artifact / draft counts substituted in. -/
def fallback_response (st : DB) : Response :=
  { type := "help",
    message :=
      "👋 I\x27m your fundraising assistant! Here\x27s what I can do:\n\n📧 **Send Email:**\n   `Send email to investor@email.com the draft of pitchdeck`\n\n🔍 **Search Data:**\n   `Show me data for - \x27keyword1\x27, \x27keyword2\x27`\n\n📊 **Quick Stats:**\n   "
        ++ ("- Investors: " ++ toString st.investors.length)
        ++ ("\n   " ++ ("- Artifacts: " ++ toString st.artifacts.length))
        ++ ("\n   " ++ ("- Email Drafts: " ++ toString st.drafts.length))
        ++ "\n\n💡 Tip: Configure your Gemini API key for AI-powered responses!",
    data := none }

/-- Handler `ChatbotService._handle_generic_query`.  The AI backend is
modelled as `Option (String → Except String String)`: `none` when no
model was configured (`self.gemini_model is None`), and otherwise a
completion call that either returns the response text or raises.  Any
raised error is swallowed and degrades to the fallback response. -/
def handle_generic_query (st : DB)
    (gemini : Option (String → Except String String)) (message : String) :
    Response :=
  match gemini with
  | none => fallback_response st
  | some complete =>
    match complete (contextPrompt st message) with
    | Except.ok text =>
      { type := "ai_response", message := "🤖 " ++ text, data := none }
    | Except.error _ => fallback_response st

/-- Dispatcher `ChatbotService.process_message`: strip the raw text,
try the send-email pattern, then the search pattern, then fall through
to the generic handler.  Returns the possibly-updated store with the
response. -/
def process_message (st : DB) (user : Option String)
    (gemini : Option (String → Except String String))
    (transport : ComposedEmail → Except String Unit)
    (message : String) : DB × Response :=
  let msg := pyStrip message
  match sendEmailFind msg with
  | some (email_address, draft_name) =>
    handle_send_email st user transport email_address draft_name
  | none =>
    match searchFind msg with
    | some query_string => (st, handle_search st query_string)
    | none => (st, handle_generic_query st gemini msg)

/-! ## Helper lemmas -/

/-- A string with a non-empty left factor is non-empty. -/
theorem append_ne_empty_left (s t : String) (h : s.data ≠ []) : s ++ t ≠ "" := by
  intro he
  have hd := congrArg String.data he
  rw [String.data_append] at hd
  exact h (List.append_eq_nil.mp hd).1

/-- `joinWithNewlines` of a list with a non-empty head is non-empty. -/
theorem joinWithNewlines_ne_empty (p : String) (ps : List String)
    (h : p.data ≠ []) : joinWithNewlines (p :: ps) ≠ "" := by
  cases ps with
  | nil =>
    intro he
    exact h (congrArg String.data he)
  | cons q qs =>
    show p ++ "\n" ++ joinWithNewlines (q :: qs) ≠ ""
    intro he
    have hd := congrArg String.data he
    rw [String.data_append, String.data_append] at hd
    exact h (List.append_eq_nil.mp (List.append_eq_nil.mp hd).1).1

/-- A pattern is a prefix of itself followed by anything. -/
theorem startsWithSeq_self_append (p t : List Char) :
    startsWithSeq p (p ++ t) = true := by
  induction p with
  | nil => rfl
  | cons c cs ih => simp [startsWithSeq, ih]

/-- Containment follows from a match at the head. -/
theorem containsSeq_of_startsWith (p l : List Char)
    (h : startsWithSeq p l = true) : containsSeq p l = true := by
  cases l with
  | nil => exact h
  | cons c cs => rw [containsSeq, h]; rfl

/-- A pattern occurs in any list of which it is an infix. -/
theorem containsSeq_append_middle (p a b : List Char) :
    containsSeq p (a ++ p ++ b) = true := by
  induction a with
  | nil =>
    simp only [List.nil_append]
    exact containsSeq_of_startsWith p (p ++ b) (startsWithSeq_self_append p b)
  | cons c cs ih =>
    show containsSeq p (c :: (cs ++ p ++ b)) = true
    rw [containsSeq, ih]
    exact Bool.or_true _

/-- Every character of a matching pattern occurs in the matched list. -/
theorem mem_of_startsWithSeq (p : List Char) :
    ∀ l, startsWithSeq p l = true → ∀ c ∈ p, c ∈ l := by
  induction p with
  | nil => intro l _ c hc; cases hc
  | cons q qs ih =>
    intro l h c hc
    cases l with
    | nil => simp [startsWithSeq] at h
    | cons d ds =>
      rw [startsWithSeq, Bool.and_eq_true] at h
      have hqd : q = d := by simpa using h.1
      rcases List.mem_cons.mp hc with rfl | hc2
      · rw [hqd]; exact List.mem_cons_self _ _
      · exact List.mem_cons_of_mem _ (ih ds h.2 c hc2)

/-- Every character of a contained pattern occurs in the list. -/
theorem mem_of_containsSeq (p l : List Char) (h : containsSeq p l = true) :
    ∀ c ∈ p, c ∈ l := by
  induction l with
  | nil => exact mem_of_startsWithSeq p [] h
  | cons d ds ih =>
    rw [containsSeq, Bool.or_eq_true] at h
    intro c hc
    rcases h with h | h
    · exact mem_of_startsWithSeq p (d :: ds) h c hc
    · exact List.mem_cons_of_mem _ (ih h c hc)

/-! ## Deduplication lemmas (search handler) -/

/-- Modelled from the spec's words for comparison with the dict-based
code path: "deduplicate by identity, preserving first-seen order" —
keep each element whose key has not been seen yet, in order. -/
def specDedupAux (key : α → Nat) (seen : List Nat) : List α → List α
  | [] => []
  | x :: xs =>
    if key x ∈ seen then specDedupAux key seen xs
    else x :: specDedupAux key (key x :: seen) xs

/-- Modelled from the spec's words: first-seen-order deduplication by
identity, starting from no seen keys. -/
def specDedupFirstSeen (key : α → Nat) (l : List α) : List α :=
  specDedupAux key [] l

/-- The spec-side dedup only depends on the seen set through
membership. -/
theorem specDedupAux_congr (key : α → Nat) (l : List α) :
    ∀ s₁ s₂, (∀ n, n ∈ s₁ ↔ n ∈ s₂) →
      specDedupAux key s₁ l = specDedupAux key s₂ l := by
  induction l with
  | nil => intro s₁ s₂ _; rfl
  | cons x xs ih =>
    intro s₁ s₂ hs
    rw [specDedupAux, specDedupAux]
    by_cases hx : key x ∈ s₁
    · rw [if_pos hx, if_pos ((hs _).mp hx)]
      exact ih s₁ s₂ hs
    · rw [if_neg hx, if_neg (fun hc => hx ((hs _).mpr hc))]
      have : ∀ n, n ∈ key x :: s₁ ↔ n ∈ key x :: s₂ := by
        intro n
        simp only [List.mem_cons]
        exact or_congr Iff.rfl (hs n)
      rw [ih _ _ this]

/-- Splitting the spec-side dedup across an append. -/
theorem specDedupAux_append (key : α → Nat) (l₁ : List α) :
    ∀ (s : List Nat) (l₂ : List α),
      specDedupAux key s (l₁ ++ l₂) =
        specDedupAux key s l₁ ++ specDedupAux key (l₁.map key ++ s) l₂ := by
  induction l₁ with
  | nil => intro s l₂; simp [specDedupAux]
  | cons x xs ih =>
    intro s l₂
    show specDedupAux key s (x :: (xs ++ l₂)) = _
    rw [specDedupAux, specDedupAux]
    by_cases hx : key x ∈ s
    · rw [if_pos hx, if_pos hx, ih s l₂]
      have : ∀ n, n ∈ List.map key xs ++ s ↔ n ∈ List.map key (x :: xs) ++ s := by
        intro n
        simp only [List.map_cons, List.mem_append, List.mem_cons]
        constructor
        · rintro (h | h)
          · exact Or.inl (Or.inr h)
          · exact Or.inr h
        · rintro ((h | h) | h)
          · exact Or.inr (h ▸ hx)
          · exact Or.inl h
          · exact Or.inr h
      rw [specDedupAux_congr key l₂ _ _ this]
    · rw [if_neg hx, if_neg hx, ih (key x :: s) l₂]
      simp only [List.cons_append, List.map_cons]
      have : ∀ n, n ∈ List.map key xs ++ key x :: s ↔
          n ∈ key x :: List.map key xs ++ s := by
        intro n
        simp only [List.mem_append, List.mem_cons]
        tauto
      rw [specDedupAux_congr key l₂ _ _ this, List.cons_append]

/-- When every key of the list was already seen, the spec-side dedup
drops everything. -/
theorem specDedupAux_all_seen (key : α → Nat) (l : List α) :
    ∀ s, (∀ x ∈ l, key x ∈ s) → specDedupAux key s l = [] := by
  induction l with
  | nil => intro s _; rfl
  | cons x xs ih =>
    intro s h
    rw [specDedupAux, if_pos (h x (List.mem_cons_self _ _))]
    exact ih s (fun y hy => h y (List.mem_cons_of_mem _ hy))

/-- The keys of the spec-side dedup result are distinct and avoid the
seen set. -/
theorem specDedupAux_nodup (key : α → Nat) (l : List α) :
    ∀ s, ((specDedupAux key s l).map key).Nodup ∧
      ∀ n ∈ s, n ∉ (specDedupAux key s l).map key := by
  induction l with
  | nil => intro s; exact ⟨List.nodup_nil, fun n _ h => (List.not_mem_nil n h)⟩
  | cons x xs ih =>
    intro s
    rw [specDedupAux]
    by_cases hx : key x ∈ s
    · rw [if_pos hx]; exact ih s
    · rw [if_neg hx]
      obtain ⟨hnd, havoid⟩ := ih (key x :: s)
      constructor
      · rw [List.map_cons, List.nodup_cons]
        exact ⟨havoid (key x) (List.mem_cons_self _ _), hnd⟩
      · intro n hn
        rw [List.map_cons, List.mem_cons]
        rintro (rfl | hmem)
        · exact hx hn
        · exact havoid n (List.mem_cons_of_mem _ hn) hmem

/-- Key consistency: any two members with equal keys are equal.  It
holds for every list drawn from a table whose primary keys are
distinct. -/
def KeyConsistent (key : α → Nat) (l : List α) : Prop :=
  ∀ x ∈ l, ∀ y ∈ l, key x = key y → x = y

/-- Under key consistency, overwriting an already-present key in the
dict accumulator is the identity. -/
theorem dictInsert_mem_eq (key : α → Nat) (acc : List α) (x : α)
    (hmem : key x ∈ acc.map key)
    (hc : ∀ y ∈ acc, key y = key x → y = x) :
    dictInsert key acc x = acc := by
  rw [dictInsert]
  rw [if_pos]
  · have hmap : List.map (fun y => if key y = key x then x else y) acc =
        List.map id acc := by
      apply List.map_congr_left
      intro y hy
      by_cases h : key y = key x
      · rw [if_pos h]; exact (hc y hy h).symm
      · rw [if_neg h]; rfl
    simpa using hmap
  · obtain ⟨y, hy, hky⟩ := List.mem_map.mp hmem
    exact List.any_eq_true.mpr ⟨y, hy, by simpa using hky⟩

/-- A fresh key appends to the dict accumulator. -/
theorem dictInsert_not_mem_eq (key : α → Nat) (acc : List α) (x : α)
    (hmem : key x ∉ acc.map key) :
    dictInsert key acc x = acc ++ [x] := by
  rw [dictInsert, if_neg]
  intro h
  obtain ⟨y, hy, hky⟩ := List.any_eq_true.mp h
  exact hmem (List.mem_map.mpr ⟨y, hy, by simpa using hky⟩)

/-- Under key consistency the dict fold from an accumulator is the
accumulator followed by the spec-side first-seen dedup. -/
theorem foldl_dictInsert_eq (key : α → Nat) (l : List α) :
    ∀ acc, KeyConsistent key (acc ++ l) →
      List.foldl (dictInsert key) acc l =
        acc ++ specDedupAux key (acc.map key) l := by
  induction l with
  | nil => intro acc _; simp [specDedupAux]
  | cons x xs ih =>
    intro acc hcons
    have hx_mem : x ∈ acc ++ x :: xs := by
      simp
    rw [List.foldl_cons, specDedupAux]
    by_cases hx : key x ∈ acc.map key
    · rw [if_pos hx]
      have hins : dictInsert key acc x = acc := by
        apply dictInsert_mem_eq key acc x hx
        intro y hy hky
        exact hcons y (List.mem_append_left _ hy) x hx_mem hky
      rw [hins]
      apply ih acc
      intro a ha b hb
      apply hcons <;>
        · first
          | exact (List.mem_append.mpr (List.mem_append.mp ha |>.imp id
              (List.mem_cons_of_mem x)))
          | exact (List.mem_append.mpr (List.mem_append.mp hb |>.imp id
              (List.mem_cons_of_mem x)))
    · rw [if_neg hx, dictInsert_not_mem_eq key acc x hx]
      have hke : ∀ n, n ∈ (acc ++ [x]).map key ↔ n ∈ key x :: acc.map key := by
        intro n
        simp only [List.map_append, List.map_cons, List.map_nil,
          List.mem_append, List.mem_cons]
        tauto
      have hrec := ih (acc ++ [x]) (by
        intro a ha b hb
        apply hcons <;> simp_all [List.mem_append, List.mem_cons])
      rw [hrec, specDedupAux_congr key xs _ _ hke, List.append_assoc]
      rfl

/-- Under key consistency the Python dict dedup coincides with the
spec-side first-seen dedup. -/
theorem dedupDict_eq_specDedup (key : α → Nat) (l : List α)
    (hcons : KeyConsistent key l) :
    dedupDict key l = specDedupFirstSeen key l := by
  have := foldl_dictInsert_eq key l [] (by simpa using hcons)
  simpa [dedupDict, specDedupFirstSeen] using this

/-- The `extend` fold is the flattened list of per-keyword results. -/
theorem foldl_append_eq_flatten (g : β → List α) (l : List β) :
    ∀ acc, List.foldl (fun a k => a ++ g k) acc l = acc ++ (l.map g).flatten := by
  induction l with
  | nil => intro acc; simp
  | cons k ks ih => intro acc; simp [List.foldl_cons, ih (acc ++ g k)]

/-- The investor `extend` loop, flattened. -/
theorem collectInvestors_eq (st : DB) (kws : List String) :
    collectInvestors st kws =
      (kws.map (fun kw => st.investors.filter (investorKwMatch kw))).flatten := by
  simpa using foldl_append_eq_flatten
    (fun kw => st.investors.filter (investorKwMatch kw)) kws []

/-- The artifact `extend` loop, flattened. -/
theorem collectArtifacts_eq (st : DB) (kws : List String) :
    collectArtifacts st kws =
      (kws.map (fun kw => st.artifacts.filter (artifactKwMatch kw))).flatten := by
  simpa using foldl_append_eq_flatten
    (fun kw => st.artifacts.filter (artifactKwMatch kw)) kws []

/-- Every collected investor is a row of the investor table. -/
theorem mem_table_of_mem_collectInvestors (st : DB) (kws : List String)
    (x : Investor) (hx : x ∈ collectInvestors st kws) : x ∈ st.investors := by
  rw [collectInvestors_eq] at hx
  obtain ⟨l, hl, hxl⟩ := List.mem_flatten.mp hx
  obtain ⟨kw, _, rfl⟩ := List.mem_map.mp hl
  exact List.mem_of_mem_filter hxl

/-- Every collected artifact is a row of the artifact table. -/
theorem mem_table_of_mem_collectArtifacts (st : DB) (kws : List String)
    (x : Artifact) (hx : x ∈ collectArtifacts st kws) : x ∈ st.artifacts := by
  rw [collectArtifacts_eq] at hx
  obtain ⟨l, hl, hxl⟩ := List.mem_flatten.mp hx
  obtain ⟨kw, _, rfl⟩ := List.mem_map.mp hl
  exact List.mem_of_mem_filter hxl

/-- A sublist of a table with distinct primary keys is key
consistent. -/
theorem keyConsistent_of_sub (key : α → Nat) (table m : List α)
    (hnd : (table.map key).Nodup) (hsub : ∀ x ∈ m, x ∈ table) :
    KeyConsistent key m :=
  fun x hx y hy hk =>
    List.inj_on_of_nodup_map hnd (hsub x hx) (hsub y hy) hk

/-- First-seen dedup of a doubled list equals the dedup of the list. -/
theorem specDedup_self_append (key : α → Nat) (m : List α) :
    specDedupFirstSeen key (m ++ m) = specDedupFirstSeen key m := by
  rw [specDedupFirstSeen, specDedupAux_append]
  rw [specDedupAux_all_seen key m (m.map key ++ [])
    (fun x hx => List.mem_append_left _ (List.mem_map_of_mem key hx))]
  rw [List.append_nil]
  rfl

/-- Doubling the keyword list doubles the collected investor list. -/
theorem collectInvestors_append_self (st : DB) (kws : List String) :
    collectInvestors st (kws ++ kws) =
      collectInvestors st kws ++ collectInvestors st kws := by
  rw [collectInvestors_eq, collectInvestors_eq, List.map_append,
    List.flatten_append]

/-- Doubling the keyword list doubles the collected artifact list. -/
theorem collectArtifacts_append_self (st : DB) (kws : List String) :
    collectArtifacts st (kws ++ kws) =
      collectArtifacts st kws ++ collectArtifacts st kws := by
  rw [collectArtifacts_eq, collectArtifacts_eq, List.map_append,
    List.flatten_append]

/-! ## Claim theorems -/

/-- C5: For a fixed datastore (with distinct primary keys) and keyword
list, the search handler's investor and artifact result lists have no
duplicate entries — a record appears once no matter how many of its
fields or how many keywords it matches; the dict-based deduplication
equals identity-keyed first-seen-order deduplication of the collected
results; and repeating the keyword list leaves both result lists
unchanged (searching the same keywords twice returns the same lists). -/
theorem search_dedup_idempotent_first_seen (st : DB) (kws : List String)
    (hinv : (st.investors.map Investor.id).Nodup)
    (hart : (st.artifacts.map Artifact.id).Nodup) :
    searchInvestors st kws =
        specDedupFirstSeen Investor.id (collectInvestors st kws)
    ∧ searchArtifacts st kws =
        specDedupFirstSeen Artifact.id (collectArtifacts st kws)
    ∧ ((searchInvestors st kws).map Investor.id).Nodup
    ∧ ((searchArtifacts st kws).map Artifact.id).Nodup
    ∧ searchInvestors st (kws ++ kws) = searchInvestors st kws
    ∧ searchArtifacts st (kws ++ kws) = searchArtifacts st kws := by
  have hconsI : ∀ m : List Investor, (∀ x ∈ m, x ∈ st.investors) →
      KeyConsistent Investor.id m :=
    fun m hm => keyConsistent_of_sub Investor.id st.investors m hinv hm
  have hconsA : ∀ m : List Artifact, (∀ x ∈ m, x ∈ st.artifacts) →
      KeyConsistent Artifact.id m :=
    fun m hm => keyConsistent_of_sub Artifact.id st.artifacts m hart hm
  have hI : searchInvestors st kws =
      specDedupFirstSeen Investor.id (collectInvestors st kws) :=
    dedupDict_eq_specDedup _ _
      (hconsI _ (mem_table_of_mem_collectInvestors st kws))
  have hA : searchArtifacts st kws =
      specDedupFirstSeen Artifact.id (collectArtifacts st kws) :=
    dedupDict_eq_specDedup _ _
      (hconsA _ (mem_table_of_mem_collectArtifacts st kws))
  refine ⟨hI, hA, ?_, ?_, ?_, ?_⟩
  · rw [hI]
    exact (specDedupAux_nodup Investor.id (collectInvestors st kws) []).1
  · rw [hA]
    exact (specDedupAux_nodup Artifact.id (collectArtifacts st kws) []).1
  · have hdup : searchInvestors st (kws ++ kws) =
        specDedupFirstSeen Investor.id (collectInvestors st (kws ++ kws)) :=
      dedupDict_eq_specDedup _ _
        (hconsI _ (mem_table_of_mem_collectInvestors st (kws ++ kws)))
    rw [hdup, collectInvestors_append_self, specDedup_self_append, hI]
  · have hdup : searchArtifacts st (kws ++ kws) =
        specDedupFirstSeen Artifact.id (collectArtifacts st (kws ++ kws)) :=
      dedupDict_eq_specDedup _ _
        (hconsA _ (mem_table_of_mem_collectArtifacts st (kws ++ kws)))
    rw [hdup, collectArtifacts_append_self, specDedup_self_append, hA]

/-- Concrete investor rows used by witnesses: id 1 matches keyword
`vc` in two fields and `tech` in one, id 2 matches both keywords. -/
def invA : Investor :=
  { id := 1, name := "Acme VC", email := "hi@acmevc.com",
    labels := "VC, Tech", address := "", details := "",
    amount := 100, updated_by := "" }

/-- Second concrete investor row for witnesses. -/
def invB : Investor :=
  { id := 2, name := "Tech Angels", email := "a@b.com",
    labels := "VC", address := "", details := "",
    amount := 200, updated_by := "" }

/-- Concrete two-investor store used by the search witnesses. -/
def dbSearch : DB :=
  { investors := [invA, invB], artifacts := [], drafts := [], logs := [],
    nextInvestorId := 3 }

/-- C5 witness: the properties at the concrete two-investor store where
one record matches one keyword in two fields and the other matches both
keywords; the doubled keyword list yields each investor exactly once,
in first-seen order. -/
theorem search_dedup_idempotent_first_seen_witness :
    ((dbSearch.investors.map Investor.id).Nodup)
    ∧ (searchInvestors dbSearch (["vc", "tech"] ++ ["vc", "tech"])).map
        Investor.id = [1, 2] := by
  constructor
  · decide
  · have h := search_dedup_idempotent_first_seen dbSearch ["vc", "tech"]
      (by decide) (by decide)
    rw [h.2.2.2.2.1]
    decide

/-- C1: A send-email command for a valid recipient with no existing
Investor row, whose draft resolves and whose transport send succeeds,
appends exactly one Investor — named after the email's local part, with
`updated_by` the acting user's username or `"system"` — so that exactly
one stored Investor carries that email; appends exactly one `success`
CommunicationLog row linked to that investor and the resolved draft;
and answers with a `success`-kind response. -/
theorem send_email_creates_investor_and_logs_success
    (st : DB) (user : Option String)
    (transport : ComposedEmail → Except String Unit) (e d : String)
    (draft : EmailDraft)
    (hno : ∀ inv ∈ st.investors, inv.email ≠ e)
    (hdraft : findDraft st d = some draft)
    (hok : transport (draftEmailMessage st (freshInvestor st e user) draft) =
      Except.ok ()) :
    (handle_send_email st user transport e d).1.investors =
        st.investors ++ [freshInvestor st e user]
    ∧ (freshInvestor st e user).name = localPart e
    ∧ (freshInvestor st e user).email = e
    ∧ (freshInvestor st e user).updated_by = user.getD "system"
    ∧ ((handle_send_email st user transport e d).1.investors.countP
        (fun i => decide (i.email = e))) = 1
    ∧ (handle_send_email st user transport e d).1.logs =
        st.logs ++
          [{ investorId := (freshInvestor st e user).id,
             draftId := some draft.id, status := "success", sent_by := user,
             notes := "Email sent via chatbot" }]
    ∧ (handle_send_email st user transport e d).2.type = "success" := by
  have hfind : st.investors.find? (fun i => decide (i.email = e)) = none :=
    List.find?_eq_none.mpr (fun x hx => by simpa using hno x hx)
  have hgoc : get_or_create_investor st e user =
      ({ st with investors := st.investors ++ [freshInvestor st e user],
                 nextInvestorId := st.nextInvestorId + 1 },
       freshInvestor st e user, true) := by
    rw [get_or_create_investor, hfind]
  have hmsg :
      draftEmailMessage
        { st with investors := st.investors ++ [freshInvestor st e user],
                  nextInvestorId := st.nextInvestorId + 1 }
        (freshInvestor st e user) draft =
      draftEmailMessage st (freshInvestor st e user) draft := rfl
  have hcount : (st.investors ++ [freshInvestor st e user]).countP
      (fun i => decide (i.email = e)) = 1 := by
    rw [List.countP_append]
    rw [List.countP_eq_zero.mpr (fun x hx => by simpa using hno x hx)]
    simp [List.countP_cons, freshInvestor]
  rw [handle_send_email, hdraft]
  simp only [hgoc, send_draft_email, hmsg, hok]
  exact ⟨rfl, rfl, rfl, rfl, hcount, rfl, rfl⟩

/-- Concrete draft row used by witnesses. -/
def draftW : EmailDraft :=
  { id := 1, name := "pitchdeck", subject := "Hi", body := "Hello",
    artifacts := [] }

/-- Concrete store holding only the witness draft. -/
def dbDraftOnly : DB :=
  { investors := [], artifacts := [], drafts := [draftW], logs := [],
    nextInvestorId := 1 }

/-- A transport that always succeeds. -/
def okTransport : ComposedEmail → Except String Unit :=
  fun _ => Except.ok ()

/-- C1 witness: the send flow at the concrete empty store. -/
theorem send_email_creates_investor_witness :
    (handle_send_email dbDraftOnly none okTransport "jane@x.com"
        "pitchdeck").1.investors =
      dbDraftOnly.investors ++ [freshInvestor dbDraftOnly "jane@x.com" none]
    ∧ (freshInvestor dbDraftOnly "jane@x.com" none).name =
        localPart "jane@x.com"
    ∧ (freshInvestor dbDraftOnly "jane@x.com" none).email = "jane@x.com"
    ∧ (freshInvestor dbDraftOnly "jane@x.com" none).updated_by =
        (none : Option String).getD "system"
    ∧ ((handle_send_email dbDraftOnly none okTransport "jane@x.com"
        "pitchdeck").1.investors.countP
          (fun i => decide (i.email = "jane@x.com"))) = 1
    ∧ (handle_send_email dbDraftOnly none okTransport "jane@x.com"
        "pitchdeck").1.logs =
        dbDraftOnly.logs ++
          [{ investorId := (freshInvestor dbDraftOnly "jane@x.com" none).id,
             draftId := some draftW.id, status := "success", sent_by := none,
             notes := "Email sent via chatbot" }]
    ∧ (handle_send_email dbDraftOnly none okTransport "jane@x.com"
        "pitchdeck").2.type = "success" :=
  send_email_creates_investor_and_logs_success dbDraftOnly none okTransport
    "jane@x.com" "pitchdeck" draftW (by decide) (by decide) rfl

/-- A transport that always raises `"SMTP down"`. -/
def badTransport : ComposedEmail → Except String Unit :=
  fun _ => Except.error "SMTP down"

/-- C2 counterexample: at a concrete store, investor and draft, a
transport raising `"SMTP down"` produces a single `failed` log row
whose notes field is `"Failed to send: SMTP down"` — not the bare
stringified transport error, contradicting the claim's description of
the notes. -/
theorem transport_failure_notes_counterexample :
    (send_draft_email dbDraftOnly badTransport invA draftW none).1.logs =
      [{ investorId := 1, draftId := some 1, status := "failed",
         sent_by := none, notes := "Failed to send: SMTP down" }]
    ∧ ¬((send_draft_email dbDraftOnly badTransport invA draftW
        none).1.logs.map (fun l => l.notes) = ["SMTP down"]) := by
  constructor
  · rfl
  · decide

/-- C2 (amended): when the transport raises, `send_draft_email` writes
zero new `success` rows and exactly one new `failed` row whose notes
embed the stringified transport error behind the fixed
`"Failed to send: "` prefix, returns `(false, detail)` instead of
propagating, and the send-email handler's response for a raising
transport is an `error`-kind response embedding that detail. -/
theorem transport_failure_logs_failed_and_errors
    (db : DB) (inv : Investor) (draft : EmailDraft) (user : Option String)
    (transport : ComposedEmail → Except String Unit) (err : String)
    (hfail : transport (draftEmailMessage db inv draft) = Except.error err) :
    (send_draft_email db transport inv draft user).2.1 = false
    ∧ (send_draft_email db transport inv draft user).2.2 = err
    ∧ (send_draft_email db transport inv draft user).1.logs =
        db.logs ++
          [{ investorId := inv.id, draftId := some draft.id,
             status := "failed", sent_by := user,
             notes := "Failed to send: " ++ err }]
    ∧ (send_draft_email db transport inv draft user).1.logs.countP
        (fun l => decide (l.status = "success")) =
      db.logs.countP (fun l => decide (l.status = "success"))
    ∧ (send_draft_email db transport inv draft user).1.logs.countP
        (fun l => decide (l.status = "failed")) =
      db.logs.countP (fun l => decide (l.status = "failed")) + 1
    ∧ ∀ (st : DB) (u : Option String) (e d : String) (dr : EmailDraft)
        (tr : ComposedEmail → Except String Unit),
        findDraft st d = some dr → (∀ m, tr m = Except.error err) →
        (handle_send_email st u tr e d).2 =
          { type := "error", message := "❌ Failed to send email: " ++ err,
            data := none } := by
  refine ⟨?_, ?_, ?_, ?_, ?_, ?_⟩
  · simp only [send_draft_email, hfail]
  · simp only [send_draft_email, hfail]
  · simp only [send_draft_email, hfail]
  · simp only [send_draft_email, hfail]
    rw [List.countP_append]
    simp [List.countP_cons]
  · simp only [send_draft_email, hfail]
    rw [List.countP_append]
    simp [List.countP_cons]
  · intro st u e d dr tr hdr htr
    rw [handle_send_email, hdr]
    simp only [send_draft_email, htr]
    simp

/-- C2 witness: the amended claim at the concrete store, investor,
draft and raising transport. -/
theorem transport_failure_logs_failed_witness :
    (send_draft_email dbDraftOnly badTransport invA draftW none).2.1 = false
    ∧ (send_draft_email dbDraftOnly badTransport invA draftW none).2.2 =
        "SMTP down"
    ∧ (handle_send_email dbDraftOnly none badTransport "jane@x.com"
        "pitchdeck").2 =
        { type := "error", message := "❌ Failed to send email: SMTP down",
          data := none } := by
  have h := transport_failure_logs_failed_and_errors dbDraftOnly invA draftW
    none badTransport "SMTP down" rfl
  exact ⟨h.1, h.2.1,
    h.2.2.2.2.2 dbDraftOnly none "jane@x.com" "pitchdeck" draftW badTransport
      (by decide) (fun _ => rfl)⟩

/-- C3: When no stored draft matches the requested name
case-insensitively, the send-email handler leaves the store untouched
and returns an `error`-kind response whose message lists exactly the
names of all currently stored drafts — or says no drafts are available
when there are none — without falling through to any other handler. -/
theorem unknown_draft_returns_error_listing_drafts
    (st : DB) (user : Option String)
    (transport : ComposedEmail → Except String Unit) (e d : String)
    (hmiss : ∀ dr ∈ st.drafts, pyToLower dr.name ≠ pyToLower d) :
    handle_send_email st user transport e d =
      (st, { type := "error",
             message := "❌ Draft \x27" ++ d
               ++ "\x27 not found. Available drafts: "
               ++ (if (st.drafts.map (fun dr => dr.name)).isEmpty then
                     "No drafts available"
                   else String.intercalate ", "
                     (st.drafts.map (fun dr => dr.name))),
             data := none }) := by
  have hfound : findDraft st d = none := by
    rw [findDraft]
    exact List.find?_eq_none.mpr (fun x hx => by simpa using hmiss x hx)
  rw [handle_send_email, hfound]

/-- C3 witness: an unknown draft name at the concrete one-draft store
produces the listing error, and at the empty store the no-drafts
notice. -/
theorem unknown_draft_returns_error_witness :
    handle_send_email dbDraftOnly none okTransport "a@b.com" "nope" =
      (dbDraftOnly,
       { type := "error",
         message := "❌ Draft \x27nope\x27 not found. Available drafts: "
           ++ (if ((dbDraftOnly.drafts.map (fun dr => dr.name)).isEmpty) then
                 "No drafts available"
               else String.intercalate ", "
                 (dbDraftOnly.drafts.map (fun dr => dr.name))),
         data := none }) :=
  unknown_draft_returns_error_listing_drafts dbDraftOnly none okTransport
    "a@b.com" "nope" (by decide)

/-- C4: `process_message` strips the raw text first and classifies the
result with first-match-wins ordering — the send-email pattern routes
to the send-email handler with its two captures, otherwise the search
pattern routes to the search handler with the captured remainder,
otherwise the generic AI-assisted handler runs; exactly one handler
runs per call. -/
theorem process_message_dispatch_first_match_wins
    (st : DB) (user : Option String)
    (gemini : Option (String → Except String String))
    (transport : ComposedEmail → Except String Unit) (message : String) :
    (∀ e d, sendEmailFind (pyStrip message) = some (e, d) →
      process_message st user gemini transport message =
        handle_send_email st user transport e d)
    ∧ (sendEmailFind (pyStrip message) = none →
        ∀ q, searchFind (pyStrip message) = some q →
          process_message st user gemini transport message =
            (st, handle_search st q))
    ∧ (sendEmailFind (pyStrip message) = none →
        searchFind (pyStrip message) = none →
          process_message st user gemini transport message =
            (st, handle_generic_query st gemini (pyStrip message))) := by
  refine ⟨?_, ?_, ?_⟩
  · intro e d h
    simp only [process_message, h]
  · intro h1 q h2
    simp only [process_message, h1, h2]
  · intro h1 h2
    simp only [process_message, h1, h2]

/-- C4 witness: the three dispatch outcomes at concrete messages — a
padded mixed-case send command, a search command, and a plain
question. -/
theorem process_message_dispatch_witness :
    process_message dbDraftOnly none none okTransport
        "  Send EMAIL to a@b.com the draft of intro  " =
      handle_send_email dbDraftOnly none okTransport "a@b.com" "intro"
    ∧ process_message dbDraftOnly none none okTransport
        "Show me data for - vc" =
      (dbDraftOnly, handle_search dbDraftOnly "vc")
    ∧ process_message dbDraftOnly none none okTransport "hello" =
      (dbDraftOnly, handle_generic_query dbDraftOnly none "hello") := by
  have h1 := (process_message_dispatch_first_match_wins dbDraftOnly none none
    okTransport "  Send EMAIL to a@b.com the draft of intro  ").1
    "a@b.com" "intro" (by decide)
  have h2 := (process_message_dispatch_first_match_wins dbDraftOnly none none
    okTransport "Show me data for - vc").2.1 (by decide) "vc" (by decide)
  have h3 := (process_message_dispatch_first_match_wins dbDraftOnly none none
    okTransport "hello").2.2 (by decide) (by decide)
  exact ⟨h1, h2, h3⟩

/-- C6: Keyword tokenization extracts quoted substrings verbatim with
the quote marks stripped together with unquoted words; a token is kept
exactly when it does not strip to empty and its lowercase form is not a
stop-word, and kept tokens are stripped; an empty keyword set makes the
search handler answer with the error asking for keywords; and the two
spec examples tokenize to `["vc", "tech"]` and `["Series A", "fund"]`
after their query fragments are captured by the search pattern. -/
theorem keyword_tokenization_spec (st : DB) :
    searchFind (pyStrip "show data for the vc and tech") =
        some "the vc and tech"
    ∧ extractKeywords "the vc and tech" = ["vc", "tech"]
    ∧ searchFind (pyStrip "show me data for - \x27Series A\x27, fund") =
        some "\x27Series A\x27, fund"
    ∧ extractKeywords "\x27Series A\x27, fund" = ["Series A", "fund"]
    ∧ (∀ q, extractKeywords q = [] →
        handle_search st q =
          { type := "error",
            message := "❌ Please provide keywords to search for.",
            data := none })
    ∧ (∀ q s, s ∈ extractKeywords q ↔
        ∃ t ∈ rawTokens q,
          pyStrip t = s ∧ pyStrip t ≠ "" ∧ pyToLower t ∉ stopWords) := by
  refine ⟨by decide, by decide, by decide, by decide, ?_, ?_⟩
  · intro q h
    rw [handle_search, h]
    simp
  · intro q s
    rw [extractKeywords]
    simp only [List.mem_map, List.mem_filter, Bool.and_eq_true,
      decide_eq_true_eq]
    constructor
    · rintro ⟨t, ⟨ht, hne, hstop⟩, rfl⟩
      exact ⟨t, ht, rfl, hne, hstop⟩
    · rintro ⟨t, ht, rfl, hne, hstop⟩
      exact ⟨t, ⟨ht, hne, hstop⟩, rfl⟩

/-- C6 witness: the empty-keyword error at the concrete query `-`, and
the membership characterization producing the stripped quoted token
`for` from the query `\x27 for \x27, x_1`. -/
theorem keyword_tokenization_witness :
    handle_search dbSearch "-" =
      { type := "error",
        message := "❌ Please provide keywords to search for.",
        data := none }
    ∧ "for" ∈ extractKeywords "\x27 for \x27, x_1" := by
  have h := keyword_tokenization_spec dbSearch
  refine ⟨h.2.2.2.2.1 "-" (by decide), ?_⟩
  exact (h.2.2.2.2.2 "\x27 for \x27, x_1" "for").mpr
    ⟨" for ", by decide, by decide, by decide, by decide⟩

/-- C7: Both mailer operations compose their outgoing message with HTML
content type exactly when the body contains at least one `<` and at
least one `>` character; a body containing `<b>` anywhere is sent as
HTML, and a body with no such pair keeps the plain-text type. -/
theorem html_content_detection (db : DB) (inv : Investor)
    (draft : EmailDraft) (to_email subject body : String)
    (atts : Option (List String)) :
    ((draftEmailMessage db inv draft).content_subtype = "html" ↔
      (hasChar draft.body '<' = true ∧ hasChar draft.body '>' = true))
    ∧ ((customEmailMessage to_email subject body atts).content_subtype =
        "html" ↔ (hasChar body '<' = true ∧ hasChar body '>' = true))
    ∧ (containsSeq "<b>".data draft.body.data = true →
        (draftEmailMessage db inv draft).content_subtype = "html")
    ∧ (containsSeq "<b>".data body.data = true →
        (customEmailMessage to_email subject body atts).content_subtype =
          "html")
    ∧ (¬(hasChar draft.body '<' = true ∧ hasChar draft.body '>' = true) →
        (draftEmailMessage db inv draft).content_subtype = "plain")
    ∧ (¬(hasChar body '<' = true ∧ hasChar body '>' = true) →
        (customEmailMessage to_email subject body atts).content_subtype =
          "plain") := by
  have hiff : ∀ (sub bd : String) (toA att : List String),
      ((composeEmail sub bd toA att).content_subtype = "html" ↔
        (hasChar bd '<' = true ∧ hasChar bd '>' = true)) := by
    intro sub bd toA att
    rw [composeEmail]
    by_cases h1 : hasChar bd '<' = true <;>
      by_cases h2 : hasChar bd '>' = true <;>
        simp [h1, h2]
  have hplain : ∀ (sub bd : String) (toA att : List String),
      ¬(hasChar bd '<' = true ∧ hasChar bd '>' = true) →
      (composeEmail sub bd toA att).content_subtype = "plain" := by
    intro sub bd toA att h
    rw [composeEmail]
    by_cases h1 : hasChar bd '<' = true
    · by_cases h2 : hasChar bd '>' = true
      · exact absurd ⟨h1, h2⟩ h
      · simp [h1, h2]
    · by_cases h2 : hasChar bd '>' = true
      · simp [h1, h2]
      · simp [h1, h2]
  have hchars : ∀ (s : String), containsSeq "<b>".data s.data = true →
      hasChar s '<' = true ∧ hasChar s '>' = true := by
    intro s h
    have h1 := mem_of_containsSeq _ _ h '<' (by decide)
    have h2 := mem_of_containsSeq _ _ h '>' (by decide)
    refine ⟨?_, ?_⟩
    · rw [hasChar]
      simp only [List.contains, List.elem_iff]
      exact h1
    · rw [hasChar]
      simp only [List.contains, List.elem_iff]
      exact h2
  refine ⟨hiff _ _ _ _, hiff _ _ _ _, ?_, ?_, hplain _ _ _ _, hplain _ _ _ _⟩
  · intro h
    exact (hiff draft.subject draft.body [inv.email]
      (draftAttachments db draft)).mpr (hchars _ h)
  · intro h
    exact (hiff subject body [to_email] (atts.getD [])).mpr (hchars _ h)

/-- C7 witness: a body containing `<b>` is composed as HTML, a body
without an angle-bracket pair stays plain. -/
theorem html_content_detection_witness :
    (customEmailMessage "a@b.com" "s" "hi <b>there</b>"
        none).content_subtype = "html"
    ∧ (customEmailMessage "a@b.com" "s" "2 < 3 and more" none).content_subtype =
        "plain" := by
  have h1 := (html_content_detection dbDraftOnly invA draftW "a@b.com" "s"
    "hi <b>there</b>" none).2.2.2.1 (by decide)
  have h2 := (html_content_detection dbDraftOnly invA draftW "a@b.com" "s"
    "2 < 3 and more" none).2.2.2.2.2 (by decide)
  exact ⟨h1, h2⟩

/-- A string whose left factor has characters has characters. -/
theorem data_append_ne_nil (a b : String) (h : a.data ≠ []) :
    (a ++ b).data ≠ [] := by
  rw [String.data_append]
  intro hc
  exact h (List.append_eq_nil.mp hc).1

/-- Prefix extension preserves containment. -/
theorem containsSeq_append_left (p x l : List Char)
    (h : containsSeq p l = true) : containsSeq p (x ++ l) = true := by
  induction x with
  | nil => exact h
  | cons c cs ih =>
    show containsSeq p (c :: (cs ++ l)) = true
    rw [containsSeq, ih]
    exact Bool.or_true _

/-- C8: With the AI backend unconfigured, or when its completion call
raises any error, the generic-query handler returns the fallback
`help`-kind response carrying the live investor / artifact / draft
counts in its message and no payload; the result of the failing call is
exactly the no-backend result, so the raw backend error never reaches
the returned response. -/
theorem generic_query_fallback_help (st : DB) (msg : String) :
    handle_generic_query st none msg = fallback_response st
    ∧ (∀ f err, f (contextPrompt st msg) = Except.error err →
        handle_generic_query st (some f) msg = fallback_response st)
    ∧ (fallback_response st).type = "help"
    ∧ (fallback_response st).data = none
    ∧ containsSeq ("- Investors: " ++ toString st.investors.length).data
        (fallback_response st).message.data = true
    ∧ containsSeq ("- Artifacts: " ++ toString st.artifacts.length).data
        (fallback_response st).message.data = true
    ∧ containsSeq ("- Email Drafts: " ++ toString st.drafts.length).data
        (fallback_response st).message.data = true := by
  refine ⟨rfl, ?_, rfl, rfl, ?_, ?_, ?_⟩
  · intro f err h
    rw [handle_generic_query, h]
  · rw [fallback_response]
    simp only [String.data_append, List.append_assoc]
    apply containsSeq_append_left
    rw [← List.append_assoc]
    apply containsSeq_of_startsWith
    exact startsWithSeq_self_append _ _
  · rw [fallback_response]
    simp only [String.data_append, List.append_assoc]
    apply containsSeq_append_left
    apply containsSeq_append_left
    apply containsSeq_append_left
    apply containsSeq_append_left
    rw [← List.append_assoc]
    apply containsSeq_of_startsWith
    exact startsWithSeq_self_append _ _
  · rw [fallback_response]
    simp only [String.data_append, List.append_assoc]
    apply containsSeq_append_left
    apply containsSeq_append_left
    apply containsSeq_append_left
    apply containsSeq_append_left
    apply containsSeq_append_left
    apply containsSeq_append_left
    apply containsSeq_append_left
    rw [← List.append_assoc]
    apply containsSeq_of_startsWith
    exact startsWithSeq_self_append _ _

/-- An AI backend whose completion call always raises. -/
def failBackend : String → Except String String :=
  fun _ => Except.error "quota exceeded"

/-- C8 witness: a raising backend at the concrete store degrades to the
fallback help response. -/
theorem generic_query_fallback_witness :
    handle_generic_query dbSearch (some failBackend) "hi" =
      fallback_response dbSearch
    ∧ (fallback_response dbSearch).type = "help" := by
  have h := generic_query_fallback_help dbSearch "hi"
  exact ⟨h.2.1 failBackend "quota exceeded" rfl, h.2.2.1⟩

/-- C9: A send-email command addressed to an email that exactly one
stored Investor already carries never touches the investor table: no
row is added and the existing row's stored fields are left exactly as
they were, whatever the transport does and whether or not the draft
resolves. -/
theorem existing_investor_unchanged_by_send
    (st : DB) (user : Option String)
    (transport : ComposedEmail → Except String Unit) (e d : String)
    (hone : st.investors.countP (fun i => decide (i.email = e)) = 1) :
    (handle_send_email st user transport e d).1.investors = st.investors
    ∧ (handle_send_email st user transport e d).1.investors.countP
        (fun i => decide (i.email = e)) = 1 := by
  suffices h : (handle_send_email st user transport e d).1.investors =
      st.investors by
    exact ⟨h, by rw [h]; exact hone⟩
  cases hfd : findDraft st d with
  | none => rw [handle_send_email, hfd]
  | some draft =>
    have hpos : 0 < st.investors.countP (fun i => decide (i.email = e)) := by
      omega
    have hex := List.countP_pos_iff.mp hpos
    obtain ⟨inv, hinv⟩ :=
      Option.isSome_iff_exists.mp (List.find?_isSome.mpr hex)
    rw [handle_send_email, hfd]
    simp only [get_or_create_investor, hinv, send_draft_email]
    cases transport (draftEmailMessage st inv draft) <;> simp

/-- C9 witness: sending to the already-stored investor email leaves the
two-investor table unchanged. -/
theorem existing_investor_unchanged_witness :
    (handle_send_email dbSearch none okTransport "a@b.com"
        "pitchdeck").1.investors = dbSearch.investors :=
  (existing_investor_unchanged_by_send dbSearch none okTransport "a@b.com"
    "pitchdeck" (by decide)).1

/-! ## Response shape invariant (C10) -/

/-- Wellformedness of a chatbot response: the `type` is one of the five
kinds, the `message` is non-empty, a `success` response carries the
investor/draft payload, a `search_results` response carries the
investors/artifacts/keywords payload, and the other kinds carry no
payload. -/
def ResponseWF (r : Response) : Prop :=
  (r.type = "success" ∨ r.type = "error" ∨ r.type = "search_results" ∨
      r.type = "ai_response" ∨ r.type = "help")
  ∧ r.message ≠ ""
  ∧ (r.type = "success" →
      ∃ inv dr, r.data = some (Payload.sendData inv dr))
  ∧ (r.type = "search_results" →
      ∃ invs arts kws, r.data = some (Payload.searchData invs arts kws))
  ∧ ((r.type = "error" ∨ r.type = "ai_response" ∨ r.type = "help") →
      r.data = none)

/-- An `error` response with a non-empty message is well formed. -/
theorem responseWF_error (m : String) (hm : m ≠ "") :
    ResponseWF { type := "error", message := m, data := none } :=
  ⟨Or.inr (Or.inl rfl), hm, fun h => by simp at h, fun h => by simp at h,
   fun _ => rfl⟩

/-- A `success` response with a non-empty message and a send payload is
well formed. -/
theorem responseWF_success (m : String) (hm : m ≠ "") (inv : Investor)
    (dr : EmailDraft) :
    ResponseWF { type := "success", message := m,
                 data := some (Payload.sendData inv dr) } :=
  ⟨Or.inl rfl, hm, fun _ => ⟨inv, dr, rfl⟩, fun h => by simp at h,
   fun h => by rcases h with h | h | h <;> simp at h⟩

/-- A `search_results` response with a non-empty message and a search
payload is well formed. -/
theorem responseWF_search (m : String) (hm : m ≠ "") (a : List Investor)
    (b : List Artifact) (c : List String) :
    ResponseWF { type := "search_results", message := m,
                 data := some (Payload.searchData a b c) } :=
  ⟨Or.inr (Or.inr (Or.inl rfl)), hm, fun h => by simp at h,
   fun _ => ⟨a, b, c, rfl⟩,
   fun h => by rcases h with h | h | h <;> simp at h⟩

/-- An `ai_response` response with a non-empty message is well
formed. -/
theorem responseWF_ai (m : String) (hm : m ≠ "") :
    ResponseWF { type := "ai_response", message := m, data := none } :=
  ⟨Or.inr (Or.inr (Or.inr (Or.inl rfl))), hm, fun h => by simp at h,
   fun h => by simp at h, fun _ => rfl⟩

/-- A `help` response with a non-empty message is well formed. -/
theorem responseWF_help (m : String) (hm : m ≠ "") :
    ResponseWF { type := "help", message := m, data := none } :=
  ⟨Or.inr (Or.inr (Or.inr (Or.inr rfl))), hm, fun h => by simp at h,
   fun h => by simp at h, fun _ => rfl⟩

/-- The send-email handler's response is well formed. -/
theorem handle_send_email_wf (st : DB) (user : Option String)
    (transport : ComposedEmail → Except String Unit) (e d : String) :
    ResponseWF (handle_send_email st user transport e d).2 := by
  rw [handle_send_email]
  cases hfd : findDraft st d with
  | none =>
    apply responseWF_error
    apply append_ne_empty_left
    apply data_append_ne_nil
    apply data_append_ne_nil
    decide
  | some draft =>
    split
    · rename_i heq
      exact absurd heq (by simp)
    · rename_i dr heq
      dsimp only
      split
      · apply responseWF_success
        apply append_ne_empty_left
        apply data_append_ne_nil
        apply data_append_ne_nil
        apply data_append_ne_nil
        apply data_append_ne_nil
        apply data_append_ne_nil
        apply data_append_ne_nil
        decide
      · apply responseWF_error
        apply append_ne_empty_left
        decide

/-- The search handler's response is well formed. -/
theorem handle_search_wf (st : DB) (q : String) :
    ResponseWF (handle_search st q) := by
  rw [handle_search]
  split
  · apply responseWF_error
    decide
  · apply responseWF_search
    apply joinWithNewlines_ne_empty
    apply data_append_ne_nil
    apply data_append_ne_nil
    decide

/-- The generic handler's response is well formed. -/
theorem handle_generic_query_wf (st : DB)
    (gemini : Option (String → Except String String)) (msg : String) :
    ResponseWF (handle_generic_query st gemini msg) := by
  have hfb : ResponseWF (fallback_response st) := by
    apply responseWF_help
    apply append_ne_empty_left
    apply data_append_ne_nil
    apply data_append_ne_nil
    apply data_append_ne_nil
    decide
  cases gemini with
  | none => exact hfb
  | some f =>
    have hq : handle_generic_query st (some f) msg =
        match f (contextPrompt st msg) with
        | Except.ok text =>
          { type := "ai_response", message := "🤖 " ++ text, data := none }
        | Except.error _ => fallback_response st := rfl
    rw [hq]
    cases f (contextPrompt st msg) with
    | ok text =>
      apply responseWF_ai
      apply append_ne_empty_left
      decide
    | error err => exact hfb

/-- C10: Every response produced by `process_message` has a `type`
among exactly `success`, `error`, `search_results`, `ai_response` and
`help`, a non-empty `message`, a payload carrying the investor and
draft when the type is `success`, a payload carrying investors,
artifacts and keywords when the type is `search_results`, and no
payload on `error`, `ai_response` and `help` responses. -/
theorem process_message_response_wellformed (st : DB) (user : Option String)
    (gemini : Option (String → Except String String))
    (transport : ComposedEmail → Except String Unit) (message : String) :
    ResponseWF (process_message st user gemini transport message).2 := by
  rw [process_message]
  cases hse : sendEmailFind (pyStrip message) with
  | some p => exact handle_send_email_wf st user transport p.1 p.2
  | none =>
    cases hsr : searchFind (pyStrip message) with
    | some q => exact handle_search_wf st q
    | none => exact handle_generic_query_wf st gemini (pyStrip message)

/-- C10 witness: the invariant read off at a concrete dispatch — the
help response of a plain question has kind `help` and no payload. -/
theorem process_message_response_wellformed_witness :
    (process_message dbSearch none none okTransport "hello").2.type = "help"
    ∧ (process_message dbSearch none none okTransport "hello").2.data =
        none := by
  have h := process_message_response_wellformed dbSearch none none okTransport
    "hello"
  have htype : (process_message dbSearch none none okTransport
      "hello").2.type = "help" := by decide
  exact ⟨htype, h.2.2.2.2 (Or.inr (Or.inr htype))⟩
